import Mathlib

/-!
Verification of the scattered-data fitting engine in `rspl/scat.c`
(ArgyllCMS regularized-spline fitter).

The development shallowly embeds the parts of `scat.c` that the claims
C1..C10 are about:

* the boundary-stiffening weights of `setup_solve` and the `final`
  argument that the multigrid driver `add_rspl_imp` passes to it (C1);
* the multigrid resolution ladder computed in `fit_rspl_imp` (C2, C3);
* the eager input-validation phase of `fit_rspl_imp` (grid resolution
  check, `ipos[]` adjacent-gap check) and the event order of the whole
  fit, including the early return of `add_rspl_imp` for `dno == 0`
  (C4, C9, C10);
* the relaxation batch-size computation and the outer solver loop of
  `solve_gres` (C5, C6);
* the incremental accumulation of `normb` in `setup_solve` (C7);
* the per-axis curvature weight computation of `new_mgtmp` (C8).

Real (`double`) arithmetic is modelled by `ℚ` where the code performs
only field operations and comparisons, and by `ℝ` where it calls
`log`/`exp`/`sqrt`.  The release-build configuration of `scat.c` is
used throughout: `EXTRA_SURFACE_SMOOTHING`, `INCURVEADJ` and
`ENABLE_2PASSSMTH` defined, `GRATIO = 2.0`, `TOL_IMP = 0.998`,
`JITTERS = 0`, `MAXNI = 16`, `ZFCOUNT = 1`.
-/

/- ================================================================ -/
/- C1: boundary stiffening in `setup_solve` and the driver argument  -/
/- ================================================================ -/

/-- Stiffening weight `k0w` of `setup_solve` (scat.c:1610-1616): with
`EXTRA_SURFACE_SMOOTHING` defined it starts as `2.0`, and is reset to
`1.0` when `final == 0` (scat.c:1623-1624). -/
def k0wQ (isFinal : Bool) : ℚ := if isFinal then 2 else 1

/-- Stiffening weight `k1w` of `setup_solve` (scat.c:1613): `1.15` when
stiffening is active, reset to `1.0` when `final == 0`. -/
def k1wQ (isFinal : Bool) : ℚ := if isFinal then 23/20 else 1

/-- Per-orthogonal-axis extra edge factor of `setup_solve`
(scat.c:1640-1647): for an axis `k` other than the curvature axis,
a node whose coordinate `g` is on the boundary (`0` or `r-1`) of an
axis of resolution `r` contributes `k0w`, one cell in (`1` or `r-2`)
contributes `k1w`, interior cells contribute `1`. -/
def edgeFactor (isFinal : Bool) (r g : ℕ) : ℚ :=
  if g = 0 ∨ g = r - 1 then k0wQ isFinal
  else if g = 1 ∨ g = r - 2 then k1wQ isFinal
  else 1

/-- The accumulated extra weight `xx` of `setup_solve` (scat.c:1636,
1640-1647): the product of `edgeFactor` over every axis `k ≠ e`, where
`e` is the curvature direction, `gres` the per-axis resolutions and
`gc` the node's grid coordinates. -/
def xxWeight (isFinal : Bool) (gres gc : List ℕ) (e : ℕ) : ℚ :=
  ((List.range gres.length).filter (fun k => k ≠ e)).foldl
    (fun acc k => acc * edgeFactor isFinal (gres.getD k 0) (gc.getD k 0)) 1

/-- Along-axis stiffening multiplier for the cell-below curvature term
(scat.c:1661-1664), guarded in the source by `gc[e] - 2 >= 0`; `r` is
`gres[e]` and `g` is `gc[e]`, taken in `ℤ` to mirror the C integer
expressions. -/
def kwBelowFac (isFinal : Bool) (r g : ℤ) : ℚ :=
  if g - 2 = 0 ∨ g = r - 1 then k0wQ isFinal
  else if g - 2 = 1 ∨ g = r - 2 then k1wQ isFinal
  else 1

/-- Along-axis stiffening multiplier for the this-cell curvature term
(scat.c:1684-1687), guarded by `gc[e]-1 >= 0 && gc[e]+1 < gres[e]`. -/
def kwCentreFac (isFinal : Bool) (r g : ℤ) : ℚ :=
  if g - 1 = 0 ∨ g + 1 = r - 1 then k0wQ isFinal
  else if g - 1 = 1 ∨ g + 1 = r - 2 then k1wQ isFinal
  else 1

/-- Along-axis stiffening multiplier for the cell-above curvature term
(scat.c:1708-1711), guarded by `gc[e] + 2 < gres[e]`. -/
def kwAboveFac (isFinal : Bool) (r g : ℤ) : ℚ :=
  if g = 0 ∨ g + 2 = r - 1 then k0wQ isFinal
  else if g = 1 ∨ g + 2 = r - 2 then k1wQ isFinal
  else 1

/-- The `final` argument that the multigrid driver passes to
`setup_solve` for rung `nn` of a ladder of `nit` rungs.  The source
(scat.c:659-660) reads

    //  setup_solve(m, nn == (s->niters-1));
        setup_solve(m, 1);

that is, the rung-dependent version is commented out and the driver
passes `1` (true) for every rung. -/
def setupFinalArg (nn nit : ℕ) : Bool := true

/- ================================================================ -/
/- C4, C9, C10: eager validation and the event order of a fit call   -/
/- ================================================================ -/

/-- Observable events of one call to `fit_rspl_imp`/`add_rspl_imp`, in
program order: recording an axis resolution (scat.c:362-370), the data
scanning loop (scat.c:400-460), copying and gap-checking one supplied
`ipos[]` table (scat.c:474-486), `alloc_grid` (scat.c:490), the
resolution-ladder computation (scat.c:497-546), allocating the data
point array (scat.c:587), building and solving one multigrid level for
one output channel (scat.c:653, 672), writing one channel of the output
grid (scat.c:714-715), and the final `is_mono` check (scat.c:726). -/
inductive FitEv where
  | resRec (e : ℕ)
  | dataScan
  | iposCopy (e : ℕ)
  | gridAlloc
  | ladderCalc
  | pointsAlloc
  | levelBuild (f nn : ℕ)
  | levelSolve (f nn : ℕ)
  | gridWrite (f : ℕ)
  | monoCheck
deriving DecidableEq

/-- Fatal validation errors of `fit_rspl_imp`: an axis resolution below
2 (scat.c:363-364) or two adjacent `ipos[]` entries closer than `1e-12`
(scat.c:481-482). -/
inductive FitErr where
  | resTooSmall (e : ℕ)
  | iposGap (e : ℕ)
deriving DecidableEq

/-- The per-axis resolution recording loop of `fit_rspl_imp`
(scat.c:362-381): axes are processed in order starting at index `e`;
the first axis with `gres[e] < 2` aborts with `resTooSmall`. -/
def recRes : ℕ → List ℕ → List FitEv × Option FitErr
  | _, [] => ([], none)
  | e, g :: rest =>
    if g < 2 then ([], some (FitErr.resTooSmall e))
    else
      let p := recRes (e + 1) rest
      (FitEv.resRec e :: p.1, p.2)

/-- Minimum adjacent gap `1e-12` of the `ipos[]` check (scat.c:481). -/
def gapMin : ℚ := 1 / 1000000000000

/-- The adjacent-entry check applied to one `ipos[]` table
(scat.c:479-483): the copy loop fails at the first index `i > 0` with
`fabs(ipos[i] - ipos[i-1]) < 1e-12`.  Note the source checks only the
magnitude of each adjacent difference, not its sign. -/
def adjOk : List ℚ → Bool
  | a :: b :: rest => if |b - a| < gapMin then false else adjOk (b :: rest)
  | _ => true

/-- The `ipos[]` copy loop of `fit_rspl_imp` (scat.c:474-486): axes are
processed in order; an axis without a supplied table is skipped; the
first supplied table failing `adjOk` aborts with `iposGap`. -/
def recIpos : ℕ → List (Option (List ℚ)) → List FitEv × Option FitErr
  | _, [] => ([], none)
  | e, none :: rest => recIpos (e + 1) rest
  | e, some l :: rest =>
    if adjOk l then
      let p := recIpos (e + 1) rest
      (FitEv.iposCopy e :: p.1, p.2)
    else ([], some (FitErr.iposGap e))

/-- Existence of a supplied `ipos[]` table that fails the adjacent-gap
check. -/
def badTab (tabs : List (Option (List ℚ))) : Bool :=
  tabs.any (fun o => match o with | some l => !adjOk l | none => false)

/-- Build-and-solve events of one multigrid rung `nn` for channel `f`
(scat.c:653-678). -/
def rungEvs (f nn : ℕ) : List FitEv :=
  [FitEv.levelBuild f nn, FitEv.levelSolve f nn]

/-- Events of one full pass of the resolution ladder for channel `f`
(scat.c:651-680). -/
def passEvs (nit f : ℕ) : List FitEv :=
  (List.range nit).flatMap (rungEvs f)

/-- Events of the whole fit of output channel `f`: the extra-fit loop
(`zf + 1` passes, scat.c:646) around the two-pass-smoothing loop
(`tpsm + 1` passes, scat.c:648) around the ladder, followed by the
write of channel `f` into the output grid (scat.c:714-715). -/
def chanEvs (zf tpsm nit f : ℕ) : List FitEv :=
  ((List.range (zf + 1)).flatMap
    (fun _ => (List.range (tpsm + 1)).flatMap (fun _ => passEvs nit f)))
  ++ [FitEv.gridWrite f]

/-- The body of `add_rspl_imp` (scat.c:564-727): with `dno == 0` it
returns `0` immediately (scat.c:581-583) producing no events;
otherwise it allocates the data-point array, fits every output channel
and returns the result of the external `is_mono` check, modelled by
the parameter `monoRes`. -/
def addImp (dno fdi nit zf tpsm : ℕ) (monoRes : ℤ) : List FitEv × ℤ :=
  if dno = 0 then ([], 0)
  else
    (FitEv.pointsAlloc ::
      ((List.range fdi).flatMap (chanEvs zf tpsm nit) ++ [FitEv.monoCheck]),
     monoRes)

/-- Event trace and result of one `fit_rspl_imp` call (scat.c:276-550):
resolution recording, then the data scan, then the `ipos[]` checks,
then `alloc_grid`, the ladder computation, and `add_rspl_imp`.  A
validation failure aborts with the events produced so far.  `nit` is
the ladder length (computed from the largest axis resolution) and
`monoRes` the value of the external `is_mono` check. -/
def fitTrace (gres : List ℕ) (tabs : List (Option (List ℚ)))
    (dno fdi nit zf tpsm : ℕ) (monoRes : ℤ) :
    List FitEv × Except FitErr ℤ :=
  match recRes 0 gres with
  | (evs, some err) => (evs, Except.error err)
  | (evs, none) =>
    match recIpos 0 tabs with
    | (evs2, some err) =>
      (evs ++ FitEv.dataScan :: evs2, Except.error err)
    | (evs2, none) =>
      let p := addImp dno fdi nit zf tpsm monoRes
      (evs ++ FitEv.dataScan :: evs2
           ++ FitEv.gridAlloc :: FitEv.ladderCalc :: p.1,
       Except.ok p.2)

/-- Modelled from the spec: the property the spec asserts of a supplied
`axis_positions` table, in the spec's words, namely that the table is
"strictly monotonic with minimum adjacent gap 1e-12" (either strictly
increasing or strictly decreasing, every adjacent gap at least
`1e-12`).  This is the spec-side predicate compared against the
source-side check `adjOk`; it is not part of the source. -/
def specStrictMono (l : List ℚ) : Bool :=
  specIncr l || specDecr l
where
  specIncr : List ℚ → Bool
    | a :: b :: rest => (b - a ≥ 1 / 1000000000000) && specIncr (b :: rest)
    | _ => true
  specDecr : List ℚ → Bool
    | a :: b :: rest => (a - b ≥ 1 / 1000000000000) && specDecr (b :: rest)
    | _ => true

/- ================================================================ -/
/- C6: the outer loop of `solve_gres`                                -/
/- ================================================================ -/

/-- The release-build `TOL_IMP` threshold `0.998` (scat.c:164). -/
def tolImpQ : ℚ := 998/1000

/-- The loop-exit test of `solve_gres` (scat.c:2392):
`err < tol || (derr <= 1.0 && derr > TOL_IMP)` with `derr = err/lerr`.
In the release build `JITTERS = 0` (scat.c:168), so every iteration
takes the relaxation branch, and by the batch-size computation the
batch size `ni` is always `1` (see `relaxBatch`), hence
`derr = pow(err/lerr, 1.0/ni) = err/lerr` (scat.c:2379). -/
def stopQ (tol lerr err : ℚ) : Bool :=
  err < tol || (err / lerr ≤ 1 && err / lerr > tolImpQ)

/-- The outer loop `for (i = 0; i < 500; i++)` of `solve_gres`
(scat.c:2353-2394), abstracted over the solution-error oracle `E`
(`E i` is the `soln_err` value recomputed in iteration `i`, and `lerr`
the error of the previous iteration, scat.c:2377-2378).  The value
returned is the number of iterations executed. -/
def loopFrom (E : ℕ → ℚ) (tol lerr : ℚ) (i : ℕ) : ℕ :=
  if h : i < 500 then
    (if stopQ tol lerr (E i) then i + 1 else loopFrom E tol (E i) (i + 1))
  else i
termination_by 500 - i
decreasing_by omega

/-- Number of outer-loop iterations of `solve_gres` executed, starting
from the initial error `e0` computed before the loop (scat.c:2348). -/
def outerIters (E : ℕ → ℚ) (e0 tol : ℚ) : ℕ := loopFrom E tol e0 0

/-- Iteration count of `solve_gres` (scat.c:2337-2395): when the
largest axis resolution `bres` is at most 4 the whole system is solved
by one direct `cj_line` call and the outer loop body executes zero
times; otherwise the outer loop runs. -/
def solveIters (bres : ℕ) (E : ℕ → ℚ) (e0 tol : ℚ) : ℕ :=
  if bres ≤ 4 then 0 else outerIters E e0 tol

/-- The `lerr` value seen by iteration `i` of the outer loop: the
initial error for `i = 0`, otherwise the error recomputed by the
previous iteration. -/
def lerrAt (E : ℕ → ℚ) (e0 : ℚ) : ℕ → ℚ
  | 0 => e0
  | i + 1 => E i

/-- Declarative form of the loop-exit test at iteration `i`. -/
def stopSpecAt (E : ℕ → ℚ) (e0 tol : ℚ) (i : ℕ) : Bool :=
  stopQ tol (lerrAt E e0 i) (E i)

/- ================================================================ -/
/- C7: incremental accumulation of `normb` in `setup_solve`          -/
/- ================================================================ -/

/-- One `b[]` update of `setup_solve` together with its `nbsum`
accounting (scat.c:1757-1760 for the weak-default term,
scat.c:1794-1799 for a data-point term): for an update of `b[i]` by
`tt` the code adds `(2.0 * b[i] + tt) * tt` to `nbsum` and then adds
`tt` to `b[i]`.  The state is the pair (`b`, `nbsum`). -/
def nbStep (m : ℕ) (st : (Fin m → ℚ) × ℚ) (u : Fin m × ℚ) :
    (Fin m → ℚ) × ℚ :=
  (Function.update st.1 u.1 (st.1 u.1 + u.2),
   st.2 + (2 * st.1 u.1 + u.2) * u.2)

/-- The accumulation phase of `setup_solve` over a list of updates
(index, increment), starting from `nbsum = 0` (scat.c:1737) and, when
no curvature-compensation buffer is present, from `b = 0`: the weak
default loop and the data-point loop are both sequences of such
updates. -/
def assembleB (m : ℕ) (us : List (Fin m × ℚ)) : (Fin m → ℚ) × ℚ :=
  us.foldl (nbStep m) (fun _ => 0, 0)

/-- Sum of squares of the assembled right-hand side `b[]`; the
Euclidean norm of `b` is its square root. -/
def bNormSq (m : ℕ) (us : List (Fin m × ℚ)) : ℚ :=
  Finset.univ.sum (fun j => ((assembleB m us).1 j) ^ 2)

/-- The stored `q.normb` (scat.c:1812-1816): the square root of the
accumulated `nbsum`, clamped below at `1e-4`. -/
noncomputable def normbOf (m : ℕ) (us : List (Fin m × ℚ)) : ℝ :=
  if Real.sqrt ((assembleB m us).2 : ℝ) < 1/10000 then 1/10000
  else Real.sqrt ((assembleB m us).2 : ℝ)

/- ================================================================ -/
/- C8: per-axis curvature weight of `new_mgtmp`                      -/
/- ================================================================ -/

/-- The per-axis curvature weight computation of `new_mgtmp`
(scat.c:1218-1237) and whether it consults the `opt_smooth` table.
`tpsm`/`tpsm2` are the two-pass-smoothing flags (release build has
`ENABLE_2PASSSMTH` defined, so `tpsm` is set iff `RSPL_2PASSSMTH` was
passed); `smooth` is the caller's smoothing factor `s->smooth`; `rsm`
is the resolution factor `(rsm-1)^4 / nigc` computed just above
(scat.c:1204-1216); `osv` is the value `opt_smooth(s, di, s->d.no,
s->avgdev[f])` would return.  The second component records whether
`opt_smooth` was called.  In the two-pass branch the weight is
`pow(10.0, lsm) * rsm` with `lsm = -6.0`, or `-4.0` on the second
sub-pass. -/
def cwCalc (tpsm tpsm2 : Bool) (smooth rsm osv : ℚ) : ℚ × Bool :=
  if tpsm then
    ((if tpsm2 then (1/10000 : ℚ) else 1/1000000) * rsm, false)
  else if 0 ≤ smooth then (smooth * osv * rsm, true)
  else (-smooth * rsm, false)

/- ================================================================ -/
/- C2, C3: the multigrid resolution ladder of `fit_rspl_imp`         -/
/- ================================================================ -/

/-- A C `(int)` cast of a `double`: truncation toward zero. -/
noncomputable def cTrunc (x : ℝ) : ℤ := if 0 ≤ x then ⌊x⌋ else ⌈x⌉

/-- The value `(int)((log(bres) - log(sres))/log(gratio) + 0.5)`
computed at scat.c:511 with `sres = 4` and `gratio = GRATIO = 2.0`,
before the increment at scat.c:513. -/
noncomputable def niters0 (bres : ℕ) : ℤ :=
  cTrunc ((Real.log bres - Real.log 4) / Real.log 2 + 1/2)

/-- The ladder length `s->niters` (scat.c:505-514): `2` when
`bres/sres <= gratio` (i.e. `bres/4 <= 2.0`), else `niters0 + 1`. -/
noncomputable def nitersOf (bres : ℕ) : ℤ :=
  if (bres : ℝ) / 4 ≤ 2 then 2 else niters0 bres + 1

/-- The adjusted resolution growth factor (scat.c:509 and 512): in the
short-ladder branch it is `bres/4`; otherwise
`exp((log(bres) - log(4))/niters0)`, computed with the pre-increment
iteration count. -/
noncomputable def gRatOf (bres : ℕ) : ℝ :=
  if (bres : ℝ) / 4 ≤ 2 then (bres : ℝ) / 4
  else Real.exp ((Real.log bres - Real.log 4) / (niters0 bres : ℝ))

/-- The floating `res` value at rung `i` of the fill loop
(scat.c:526-537): `res` starts at `sres = 4` and is multiplied by the
growth factor once per rung. -/
noncomputable def resAt (bres : ℕ) (i : ℕ) : ℝ := 4 * (gRatOf bres) ^ i

/-- The rounded rung resolution `ires = (int)(res + 0.5)`
(scat.c:529). -/
noncomputable def iresRaw (bres : ℕ) (i : ℕ) : ℤ :=
  cTrunc (resAt bres i + 1/2)

/-- The per-axis rung resolution `s->ires[i][e]` (scat.c:530-535): the
requested axis resolution `g` when `ires + 1 >= g`, else `ires`. -/
noncomputable def iresAt (bres g : ℕ) (i : ℕ) : ℤ :=
  if (g : ℤ) ≤ iresRaw bres i + 1 then (g : ℤ) else iresRaw bres i

/-- Index of the last rung, `s->niters - 1`. -/
noncomputable def lastRung (bres : ℕ) : ℕ := (nitersOf bres - 1).toNat

/-- Modelled from the spec: the ladder length the claim asserts,
`ceil(log(bres/4)/log(2))`, with `2` when `bres/4 <= 2`.  This is the
spec-side formula compared against the source-side `nitersOf`; it is
not part of the source. -/
noncomputable def specNiters (bres : ℕ) : ℤ :=
  if (bres : ℝ) / 4 ≤ 2 then 2
  else ⌈Real.log ((bres : ℝ) / 4) / Real.log 2⌉

/- ================================================================ -/
/- C5: the relaxation batch size of `solve_gres`                     -/
/- ================================================================ -/

/-- The clamp `if (ni < 1) ni = 1; else if (ni > MAXNI) ni = MAXNI;`
of scat.c:2370-2373, with the release value `MAXNI = 16`
(scat.c:170). -/
def clampNi (ni : ℤ) : ℤ := if ni < 1 then 1 else if ni > 16 then 16 else ni

/-- The relaxation batch size `ni` computed by `solve_gres`
(scat.c:2365-2374).  The C block reads

    int j, ni = 0;
    if (i == jitters) {
        ni = 1;
    } else {
        ni = (int)(((log(tol) - log(err)) * (double)ni)
                   /(log(err) - log(lerr)));
        if (ni < 1) ni = 1;
        else if (ni > MAXNI) ni = MAXNI;
    }

`ni` is declared inside the loop body and re-initialised to `0` on
every outer iteration, so the `(double)ni` factor in the numerator is
always `0.0`; the `(0 : ℝ)` below embeds exactly that value.
`firstRelax` is the `i == jitters` test.  (When `err = lerr` the C
division is `0.0/0.0`; the Lean convention `0 / 0 = 0` stands in for
it, and the clamp maps it to `1` either way.) -/
noncomputable def relaxBatch (firstRelax : Bool) (tol err lerr : ℝ) : ℤ :=
  if firstRelax then 1
  else
    clampNi (cTrunc (((Real.log tol - Real.log err) * (0 : ℝ))
                     / (Real.log err - Real.log lerr)))

/-- Modelled from the spec: the batch-size estimate the spec describes,
`ni = (log(tol) - log(err)) * ni_prev / (log(err) - log(lerr))` clamped
to `[1, 16]`, where `ni_prev` is the batch size of the previous batch
(the log-linear extrapolation of the last observed convergence rate).
This is what the source's formula computes if `ni` retains its value
across outer iterations instead of being re-zeroed. -/
noncomputable def specBatch (tol err lerr : ℝ) (niPrev : ℤ) : ℤ :=
  clampNi (cTrunc (((Real.log tol - Real.log err) * (niPrev : ℝ))
                   / (Real.log err - Real.log lerr)))

/- ================================================================ -/
/- Helper lemmas                                                     -/
/- ================================================================ -/

theorem edgeFactor_false_eq_one (r g : ℕ) : edgeFactor false r g = 1 := by
  unfold edgeFactor k0wQ k1wQ
  split
  · rfl
  · split <;> rfl

theorem foldl_mul_of_all_one (g : ℕ → ℚ) (hg : ∀ k, g k = 1) :
    ∀ (l : List ℕ) (a : ℚ), l.foldl (fun acc k => acc * g k) a = a := by
  intro l
  induction l with
  | nil => intro a; rfl
  | cons x xs ih =>
    intro a
    rw [List.foldl_cons, hg x, mul_one]
    exact ih a

theorem xxWeight_false_eq_one (gres gc : List ℕ) (e : ℕ) :
    xxWeight false gres gc e = 1 := by
  unfold xxWeight
  exact foldl_mul_of_all_one
    (fun k => edgeFactor false (gres.getD k 0) (gc.getD k 0))
    (fun k => edgeFactor_false_eq_one _ _) _ 1

/- ================================================================ -/
/- C1                                                                -/
/- ================================================================ -/

/-- C1, counterexample: the claim says that on a non-final rung the
builder uses `k0w = k1w = 1.0` (no extra stiffening).  But the driver
passes `final = 1` for every rung (scat.c:660), so on rung `nn = 0` of
a two-rung ladder (`0 + 1 ≠ 2`, a non-final rung) a node adjacent to a
boundary in an orthogonal axis (here a 2-D grid of resolution 4x4,
node at coordinates (2,0), curvature direction 0) receives the extra
edge weight `k0w = 2`, not `1`. -/
theorem c1_counterexample :
    (0 + 1 ≠ 2) ∧ xxWeight (setupFinalArg 0 2) [4, 4] [2, 0] 0 = 2 := by
  constructor
  · decide
  · norm_num [xxWeight, setupFinalArg, List.range_succ, edgeFactor, k0wQ, k1wQ]

/-- C1, amended: `setup_solve` itself disables the extra stiffening
when its `final` argument is `0` (all stiffening factors reduce to
`1`), and with `final` nonzero it uses `k0w = 2.0` and `k1w = 1.15`;
but the multigrid driver passes `final = 1` for every rung of the
ladder (the rung-dependent call is commented out at scat.c:659-660),
so the extra stiffening is active on every rung, not only the final
one. -/
theorem c1_amended :
    (∀ nn nit : ℕ, setupFinalArg nn nit = true)
    ∧ (∀ gres gc : List ℕ, ∀ e : ℕ, xxWeight false gres gc e = 1)
    ∧ (∀ r g : ℤ, kwBelowFac false r g = 1 ∧ kwCentreFac false r g = 1
        ∧ kwAboveFac false r g = 1)
    ∧ k0wQ true = 2 ∧ k1wQ true = 23/20 := by
  refine ⟨fun _ _ => rfl, xxWeight_false_eq_one, fun r g => ⟨?_, ?_, ?_⟩, rfl, rfl⟩
  · unfold kwBelowFac k0wQ k1wQ
    split
    · rfl
    · split <;> rfl
  · unfold kwCentreFac k0wQ k1wQ
    split
    · rfl
    · split <;> rfl
  · unfold kwAboveFac k0wQ k1wQ
    split
    · rfl
    · split <;> rfl

theorem recRes_err_of_bad (gres : List ℕ) :
    ∀ e0 : ℕ, (∃ g ∈ gres, g < 2) →
    ∃ e, (recRes e0 gres).2 = some (FitErr.resTooSmall e) := by
  induction gres with
  | nil => intro e0 h; obtain ⟨g, hg, _⟩ := h; cases hg
  | cons g rest ih =>
    intro e0 h
    by_cases hg : g < 2
    · exact ⟨e0, by simp [recRes, hg]⟩
    · obtain ⟨g', hg', hlt⟩ := h
      rcases List.mem_cons.1 hg' with h1 | h1
      · subst h1; exact absurd hlt hg
      · obtain ⟨e, he⟩ := ih (e0 + 1) ⟨g', h1, hlt⟩
        exact ⟨e, by simp [recRes, hg, he]⟩

theorem recRes_ok (gres : List ℕ) :
    ∀ e0 : ℕ, (∀ g ∈ gres, 2 ≤ g) → (recRes e0 gres).2 = none := by
  induction gres with
  | nil => intro e0 _; rfl
  | cons g rest ih =>
    intro e0 h
    have hg : ¬ g < 2 := not_lt.2 (h g (by simp))
    simp [recRes, hg, ih (e0 + 1) (fun g' hg' => h g' (by simp [hg']))]

theorem recRes_events (gres : List ℕ) :
    ∀ e0 : ℕ, ∀ ev ∈ (recRes e0 gres).1, ∃ e, ev = FitEv.resRec e := by
  induction gres with
  | nil => intro e0 ev h; cases h
  | cons g rest ih =>
    intro e0 ev h
    by_cases hg : g < 2
    · simp [recRes, hg] at h
    · simp only [recRes, if_neg hg] at h
      rcases List.mem_cons.1 h with h | h
      · exact ⟨e0, h⟩
      · exact ih (e0 + 1) ev h

theorem recIpos_err_gap (tabs : List (Option (List ℚ))) :
    ∀ e0 : ℕ, ∀ err, (recIpos e0 tabs).2 = some err →
    ∃ e, err = FitErr.iposGap e := by
  induction tabs with
  | nil => intro e0 err h; cases h
  | cons o rest ih =>
    intro e0 err h
    match o with
    | none => exact ih (e0 + 1) err h
    | some l =>
      by_cases hl : adjOk l
      · simp only [recIpos, if_pos hl] at h
        exact ih (e0 + 1) err h
      · simp only [recIpos, if_neg hl] at h
        exact ⟨e0, (Option.some_injective _ h).symm⟩

theorem recIpos_isSome_eq_badTab (tabs : List (Option (List ℚ))) :
    ∀ e0 : ℕ, (recIpos e0 tabs).2.isSome = badTab tabs := by
  induction tabs with
  | nil => intro e0; rfl
  | cons o rest ih =>
    intro e0
    match o with
    | none => simp only [recIpos, badTab, List.any_cons, Bool.false_or]; exact ih (e0 + 1)
    | some l =>
      by_cases hl : adjOk l
      · simp only [recIpos, if_pos hl, badTab, List.any_cons, hl,
          Bool.not_true, Bool.false_or]
        exact ih (e0 + 1)
      · simp [recIpos, if_neg hl, badTab, List.any_cons, hl]

theorem recIpos_events (tabs : List (Option (List ℚ))) :
    ∀ e0 : ℕ, ∀ ev ∈ (recIpos e0 tabs).1, ∃ e, ev = FitEv.iposCopy e := by
  induction tabs with
  | nil => intro e0 ev h; cases h
  | cons o rest ih =>
    intro e0 ev h
    match o with
    | none => exact ih (e0 + 1) ev h
    | some l =>
      by_cases hl : adjOk l
      · simp only [recIpos, if_pos hl] at h
        rcases List.mem_cons.1 h with h | h
        · exact ⟨e0, h⟩
        · exact ih (e0 + 1) ev h
      · simp [recIpos, if_neg hl] at h

/- ================================================================ -/
/- C9                                                                -/
/- ================================================================ -/

/-- C9: an axis resolution below 2 makes the fit fail fatally with the
resolution error, before `alloc_grid` runs and before any level is
solved; and when every axis resolution is at least 2 no resolution
error is raised. -/
theorem c9_res_check (gres : List ℕ) (tabs : List (Option (List ℚ)))
    (dno fdi nit zf tpsm : ℕ) (monoRes : ℤ) :
    ((∃ g ∈ gres, g < 2) →
      (∃ e, (fitTrace gres tabs dno fdi nit zf tpsm monoRes).2
            = Except.error (FitErr.resTooSmall e))
      ∧ FitEv.gridAlloc ∉ (fitTrace gres tabs dno fdi nit zf tpsm monoRes).1
      ∧ ∀ f nn, FitEv.levelSolve f nn
            ∉ (fitTrace gres tabs dno fdi nit zf tpsm monoRes).1)
    ∧ ((∀ g ∈ gres, 2 ≤ g) →
      ∀ e, (fitTrace gres tabs dno fdi nit zf tpsm monoRes).2
            ≠ Except.error (FitErr.resTooSmall e)) := by
  constructor
  · intro hbad
    obtain ⟨e, he⟩ := recRes_err_of_bad gres 0 hbad
    have hev : ∀ ev ∈ (recRes 0 gres).1, ∃ e', ev = FitEv.resRec e' :=
      recRes_events gres 0
    have hfit : fitTrace gres tabs dno fdi nit zf tpsm monoRes
        = ((recRes 0 gres).1, Except.error (FitErr.resTooSmall e)) := by
      unfold fitTrace
      rcases hp : recRes 0 gres with ⟨evs, r⟩
      rw [hp] at he
      simp only at he
      subst he
      rfl
    refine ⟨⟨e, by rw [hfit]⟩, ?_, ?_⟩
    · rw [hfit]
      intro hmem
      obtain ⟨e', he'⟩ := hev _ hmem
      cases he'
    · intro f nn
      rw [hfit]
      intro hmem
      obtain ⟨e', he'⟩ := hev _ hmem
      cases he'
  · intro hok e
    have hnone := recRes_ok gres 0 hok
    unfold fitTrace
    rcases hp : recRes 0 gres with ⟨evs, r⟩
    rw [hp] at hnone
    simp only at hnone
    subst hnone
    rcases hq : recIpos 0 tabs with ⟨evs2, r2⟩
    cases r2 with
    | none => simp
    | some err =>
      obtain ⟨e', he'⟩ := recIpos_err_gap tabs 0 err (by rw [hq])
      subst he'
      simp

/- ================================================================ -/
/- C4                                                                -/
/- ================================================================ -/

/-- C4, counterexample: the claim says the fit fails for every
`axis_positions` table that is not strictly monotonic.  The table
`[0, 1, 1/2]` is not strictly monotonic (in the spec's sense,
`specStrictMono`), yet every adjacent difference has magnitude at
least `1e-12`, so the source's check (which only tests the magnitude
of adjacent differences, scat.c:481) passes and the fit proceeds to
completion. -/
theorem c4_counterexample :
    (fitTrace [3] [some [0, 1, 1/2]] 5 1 2 0 0 0).2 = Except.ok 0
    ∧ specStrictMono [0, 1, 1/2] = false := by
  constructor
  · norm_num [fitTrace, recRes, recIpos, adjOk, gapMin, abs_lt, addImp]
  · norm_num [specStrictMono, specStrictMono.specIncr, specStrictMono.specDecr]

/-- C4, amended: assuming the resolutions pass validation, the fit
fails fatally with the `ipos` error exactly when some supplied
`axis_positions` table has two adjacent entries whose difference has
magnitude below `1e-12` (strict monotonicity itself is not checked),
and any such failure occurs before `alloc_grid` and before any matrix
is built. -/
theorem c4_amended (gres : List ℕ) (tabs : List (Option (List ℚ)))
    (dno fdi nit zf tpsm : ℕ) (monoRes : ℤ)
    (hok : ∀ g ∈ gres, 2 ≤ g) :
    ((∃ e, (fitTrace gres tabs dno fdi nit zf tpsm monoRes).2
          = Except.error (FitErr.iposGap e)) ↔ badTab tabs = true)
    ∧ (badTab tabs = true →
        FitEv.gridAlloc ∉ (fitTrace gres tabs dno fdi nit zf tpsm monoRes).1
        ∧ ∀ f nn, FitEv.levelBuild f nn
            ∉ (fitTrace gres tabs dno fdi nit zf tpsm monoRes).1) := by
  have hnone := recRes_ok gres 0 hok
  have hevR : ∀ ev ∈ (recRes 0 gres).1, ∃ e', ev = FitEv.resRec e' :=
    recRes_events gres 0
  have hevI : ∀ ev ∈ (recIpos 0 tabs).1, ∃ e', ev = FitEv.iposCopy e' :=
    recIpos_events tabs 0
  have hsome := recIpos_isSome_eq_badTab tabs 0
  by_cases hb : badTab tabs
  · -- some supplied table fails the gap check
    rw [hb] at hsome
    obtain ⟨err, herr⟩ := Option.isSome_iff_exists.1 hsome
    obtain ⟨e, he⟩ := recIpos_err_gap tabs 0 err herr
    subst he
    have hfit : fitTrace gres tabs dno fdi nit zf tpsm monoRes
        = ((recRes 0 gres).1 ++ FitEv.dataScan :: (recIpos 0 tabs).1,
           Except.error (FitErr.iposGap e)) := by
      unfold fitTrace
      rcases hp : recRes 0 gres with ⟨evs, r⟩
      rw [hp] at hnone
      simp only at hnone
      subst hnone
      rcases hq : recIpos 0 tabs with ⟨evs2, r2⟩
      rw [hq] at herr
      simp only at herr
      subst herr
      rfl
    refine ⟨⟨fun _ => hb, fun _ => ⟨e, by rw [hfit]⟩⟩, fun _ => ?_⟩
    rw [hfit]
    constructor
    · intro hmem
      simp only [List.mem_append, List.mem_cons] at hmem
      rcases hmem with h | h | h
      · obtain ⟨e', he'⟩ := hevR _ h; cases he'
      · cases h
      · obtain ⟨e', he'⟩ := hevI _ h; cases he'
    · intro f nn hmem
      simp only [List.mem_append, List.mem_cons] at hmem
      rcases hmem with h | h | h
      · obtain ⟨e', he'⟩ := hevR _ h; cases he'
      · cases h
      · obtain ⟨e', he'⟩ := hevI _ h; cases he'
  · -- every supplied table passes the gap check
    rw [Bool.not_eq_true] at hb
    rw [hb] at hsome
    have hqnone : (recIpos 0 tabs).2 = none := by
      rcases hr : (recIpos 0 tabs).2 with _ | err
      · rfl
      · rw [hr] at hsome; cases hsome
    refine ⟨⟨fun hex => ?_, fun htrue => by rw [htrue] at hb; cases hb⟩,
            fun htrue => by rw [htrue] at hb; cases hb⟩
    obtain ⟨e, he⟩ := hex
    revert he
    unfold fitTrace
    rcases hp : recRes 0 gres with ⟨evs, r⟩
    rw [hp] at hnone
    simp only at hnone
    subst hnone
    rcases hq : recIpos 0 tabs with ⟨evs2, r2⟩
    rw [hq] at hqnone
    simp only at hqnone
    subst hqnone
    simp

/- ================================================================ -/
/- C10                                                               -/
/- ================================================================ -/

/-- C10: a fit invoked with zero data points (and otherwise valid
inputs) returns `non_monotonic = 0` immediately: `add_rspl_imp`
returns at scat.c:581-583 before allocating the point array, so no
multigrid level is built or solved, no channel of the output grid is
written, and the external `is_mono` check never runs (whatever value
`monoRes` it would have returned). -/
theorem c10_zero_data_points (gres : List ℕ) (tabs : List (Option (List ℚ)))
    (fdi nit zf tpsm : ℕ) (monoRes : ℤ)
    (hok : ∀ g ∈ gres, 2 ≤ g) (htabs : badTab tabs = false) :
    (fitTrace gres tabs 0 fdi nit zf tpsm monoRes).2 = Except.ok 0
    ∧ ∀ ev ∈ (fitTrace gres tabs 0 fdi nit zf tpsm monoRes).1,
        (∀ f nn, ev ≠ FitEv.levelBuild f nn ∧ ev ≠ FitEv.levelSolve f nn)
        ∧ (∀ f, ev ≠ FitEv.gridWrite f)
        ∧ ev ≠ FitEv.monoCheck := by
  have hnone := recRes_ok gres 0 hok
  have hevR : ∀ ev ∈ (recRes 0 gres).1, ∃ e', ev = FitEv.resRec e' :=
    recRes_events gres 0
  have hevI : ∀ ev ∈ (recIpos 0 tabs).1, ∃ e', ev = FitEv.iposCopy e' :=
    recIpos_events tabs 0
  have hsome := recIpos_isSome_eq_badTab tabs 0
  rw [htabs] at hsome
  have hqnone : (recIpos 0 tabs).2 = none := by
    rcases hr : (recIpos 0 tabs).2 with _ | err
    · rfl
    · rw [hr] at hsome; cases hsome
  have hadd : addImp 0 fdi nit zf tpsm monoRes = ([], 0) := rfl
  have hfit : fitTrace gres tabs 0 fdi nit zf tpsm monoRes
      = ((recRes 0 gres).1 ++ FitEv.dataScan :: (recIpos 0 tabs).1
          ++ [FitEv.gridAlloc, FitEv.ladderCalc],
         Except.ok 0) := by
    unfold fitTrace
    rcases hp : recRes 0 gres with ⟨evs, r⟩
    rw [hp] at hnone
    simp only at hnone
    subst hnone
    rcases hq : recIpos 0 tabs with ⟨evs2, r2⟩
    rw [hq] at hqnone
    simp only at hqnone
    subst hqnone
    simp [hadd]
  rw [hfit]
  refine ⟨rfl, fun ev hmem => ?_⟩
  have hshape : (∃ e', ev = FitEv.resRec e') ∨ ev = FitEv.dataScan
      ∨ (∃ e', ev = FitEv.iposCopy e') ∨ ev = FitEv.gridAlloc
      ∨ ev = FitEv.ladderCalc := by
    rcases List.mem_append.1 hmem with h | h
    · rcases List.mem_append.1 h with h | h
      · exact Or.inl (hevR _ h)
      · rcases List.mem_cons.1 h with h | h
        · exact Or.inr (Or.inl h)
        · exact Or.inr (Or.inr (Or.inl (hevI _ h)))
    · rcases List.mem_cons.1 h with h | h
      · exact Or.inr (Or.inr (Or.inr (Or.inl h)))
      · rcases List.mem_cons.1 h with h | h
        · exact Or.inr (Or.inr (Or.inr (Or.inr h)))
        · cases h
  rcases hshape with ⟨e', rfl⟩ | rfl | ⟨e', rfl⟩ | rfl | rfl <;>
    exact ⟨fun f nn => ⟨by simp, by simp⟩, fun f => by simp, by simp⟩

theorem loopFrom_spec (E : ℕ → ℚ) (tol e0 : ℚ) :
    ∀ k i, 500 - i = k → i ≤ 500 →
    (i ≤ loopFrom E tol (lerrAt E e0 i) i
      ∧ loopFrom E tol (lerrAt E e0 i) i ≤ 500)
    ∧ (∀ j, i ≤ j → j + 1 < loopFrom E tol (lerrAt E e0 i) i →
        stopSpecAt E e0 tol j = false)
    ∧ (loopFrom E tol (lerrAt E e0 i) i < 500 →
        stopSpecAt E e0 tol (loopFrom E tol (lerrAt E e0 i) i - 1) = true) := by
  intro k
  induction k with
  | zero =>
    intro i hk hi
    have h500 : i = 500 := by omega
    subst h500
    have hEq : loopFrom E tol (lerrAt E e0 500) 500 = 500 := by
      rw [loopFrom]
      simp
    rw [hEq]
    exact ⟨⟨le_refl _, le_refl _⟩, fun j hj hj' => by omega, fun h => by omega⟩
  | succ k ih =>
    intro i hk hi
    have hlt : i < 500 := by omega
    by_cases hs : stopSpecAt E e0 tol i = true
    · have hEq : loopFrom E tol (lerrAt E e0 i) i = i + 1 := by
        rw [loopFrom, dif_pos hlt]
        have hs2 : stopQ tol (lerrAt E e0 i) (E i) = true := hs
        rw [if_pos hs2]
      rw [hEq]
      refine ⟨⟨by omega, by omega⟩, fun j hj hj' => by omega, fun _ => ?_⟩
      simpa using hs
    · have hs' : stopSpecAt E e0 tol i = false := by
        rw [Bool.not_eq_true] at hs; exact hs
      have hEq : loopFrom E tol (lerrAt E e0 i) i
          = loopFrom E tol (lerrAt E e0 (i + 1)) (i + 1) := by
        rw [loopFrom, dif_pos hlt]
        have hs2 : ¬ stopQ tol (lerrAt E e0 i) (E i) = true := hs
        rw [if_neg hs2]
        rfl
      obtain ⟨⟨ih1a, ih1b⟩, ih2, ih3⟩ := ih (i + 1) (by omega) (by omega)
      rw [hEq]
      refine ⟨⟨by omega, ih1b⟩, fun j hj hj' => ?_, ih3⟩
      rcases Nat.eq_or_lt_of_le hj with h | h
      · rw [h] at hs'; exact hs'
      · exact ih2 j h hj'

/- ================================================================ -/
/- C6                                                                -/
/- ================================================================ -/

/-- C6: for a level whose largest axis resolution exceeds 4, the outer
loop of `solve_gres` executes at least one and at most 500 iterations;
it never stops before an iteration whose exit test fails, and whenever
it stops before exhausting the 500-iteration cap, the last executed
iteration satisfied the exit test `err < tol || (derr <= 1.0 && derr >
0.998)` with `derr = err/lerr` (scat.c:2353, 2392-2393).  `E i` is the
relative residual recomputed by iteration `i` and `e0` the initial
residual. -/
theorem c6_outer_loop (bres : ℕ) (E : ℕ → ℚ) (e0 tol : ℚ)
    (hb : 4 < bres) :
    (0 < solveIters bres E e0 tol ∧ solveIters bres E e0 tol ≤ 500)
    ∧ (∀ j, j + 1 < solveIters bres E e0 tol →
        stopSpecAt E e0 tol j = false)
    ∧ (solveIters bres E e0 tol < 500 →
        stopSpecAt E e0 tol (solveIters bres E e0 tol - 1) = true) := by
  have hbres : ¬ bres ≤ 4 := by omega
  have hsolve : solveIters bres E e0 tol = loopFrom E tol (lerrAt E e0 0) 0 := by
    unfold solveIters outerIters
    rw [if_neg hbres]
    rfl
  obtain ⟨⟨h1a, h1b⟩, h2, h3⟩ := loopFrom_spec E tol e0 500 0 rfl (by omega)
  rw [hsolve]
  refine ⟨⟨?_, h1b⟩, fun j hj => h2 j (by omega) hj, h3⟩
  rcases Nat.eq_or_lt_of_le h1a with h | h
  · exfalso
    have := h2
    rw [← h] at h1b
    -- loopFrom returned 0 although it runs at least one iteration
    have hEq : loopFrom E tol (lerrAt E e0 0) 0
        = if stopSpecAt E e0 tol 0 = true then 0 + 1
          else loopFrom E tol (lerrAt E e0 1) 1 := by
      rw [loopFrom, dif_pos (by omega : (0:ℕ) < 500)]
      rfl
    rw [hEq] at h
    by_cases hs : stopSpecAt E e0 tol 0 = true
    · rw [if_pos hs] at h; omega
    · rw [if_neg hs] at h
      obtain ⟨⟨hh, _⟩, _, _⟩ := loopFrom_spec E tol e0 499 1 rfl (by omega)
      omega
  · exact h

theorem sum_sq_update (m : ℕ) (b : Fin m → ℚ) (i : Fin m) (v : ℚ) :
    Finset.univ.sum (fun j => (Function.update b i v j)^2)
    = Finset.univ.sum (fun j => (b j)^2) - (b i)^2 + v^2 := by
  have h1 : ∀ j, (Function.update b i v j)^2
      = Function.update (fun j => (b j)^2) i (v^2) j := by
    intro j
    by_cases h : j = i
    · subst h; simp
    · simp [Function.update_noteq h]
  rw [Finset.sum_congr rfl (fun j _ => h1 j)]
  rw [Finset.sum_update_of_mem (Finset.mem_univ i)]
  have h2 : ∑ j ∈ Finset.univ \ {i}, (b j)^2
      = (∑ j, (b j)^2) - (b i)^2 := by
    rw [Finset.sum_sdiff_eq_sub (Finset.singleton_subset_iff.2 (Finset.mem_univ i))]
    simp
  rw [h2]
  ring

theorem foldl_nbStep_invariant (m : ℕ) (us : List (Fin m × ℚ)) :
    ∀ st : (Fin m → ℚ) × ℚ,
    (us.foldl (nbStep m) st).2 - st.2
      = Finset.univ.sum (fun j => ((us.foldl (nbStep m) st).1 j)^2)
        - Finset.univ.sum (fun j => (st.1 j)^2) := by
  induction us with
  | nil => intro st; simp
  | cons u rest ih =>
    intro st
    rw [List.foldl_cons]
    have h := ih (nbStep m st u)
    have hsum : Finset.univ.sum (fun j => ((nbStep m st u).1 j)^2)
        = Finset.univ.sum (fun j => (st.1 j)^2)
          - (st.1 u.1)^2 + (st.1 u.1 + u.2)^2 :=
      sum_sq_update m st.1 u.1 (st.1 u.1 + u.2)
    have hsnd : (nbStep m st u).2 = st.2 + (2 * st.1 u.1 + u.2) * u.2 := rfl
    rw [hsum, hsnd] at h
    linear_combination h

/- ================================================================ -/
/- C7                                                                -/
/- ================================================================ -/

/-- C7, counterexample: a fit with a single data point whose
(corrected) target value is `0` produces `b = 0`, so a separate full
pass would give `‖b‖ = 0`, but `setup_solve` clamps the accumulated
norm below at `1e-4` (scat.c:1814-1815), so the stored `q.normb` is
`1e-4 ≠ ‖b‖`. -/
theorem c7_counterexample :
    normbOf 1 [(⟨0, Nat.zero_lt_one⟩, 0)]
      ≠ Real.sqrt ((bNormSq 1 [(⟨0, Nat.zero_lt_one⟩, 0)] : ℚ) : ℝ) := by
  have h2 : (assembleB 1 [(⟨0, Nat.zero_lt_one⟩, 0)]).2 = 0 := by
    simp [assembleB, nbStep]
  have hb : bNormSq 1 [(⟨0, Nat.zero_lt_one⟩, 0)] = 0 := by
    simp [bNormSq, assembleB, nbStep]
  rw [hb]
  unfold normbOf
  rw [h2]
  norm_num

/-- C7, amended: the incrementally accumulated `nbsum` does equal the
sum of squares of the assembled `b[]` (the identity
`(b+d)^2 = b^2 + 2bd + d^2` telescopes correctly over any update
sequence, including repeated updates of the same entry), provided the
accumulation starts from `b = 0`, i.e. when no curvature-compensation
buffer added terms to `b` before it (scat.c:1666-1718 versus
scat.c:1737); the stored `q.normb` is then not `‖b‖` itself but
`max(‖b‖, 1e-4)` because of the final clamp (scat.c:1814-1815). -/
theorem c7_amended (m : ℕ) (us : List (Fin m × ℚ)) :
    (assembleB m us).2 = bNormSq m us
    ∧ normbOf m us = max (Real.sqrt ((bNormSq m us : ℚ) : ℝ)) (1/10000) := by
  have h1 : (assembleB m us).2 = bNormSq m us := by
    have h := foldl_nbStep_invariant m us ((fun _ => 0), 0)
    simp only [assembleB, bNormSq] at h ⊢
    simpa using h
  refine ⟨h1, ?_⟩
  unfold normbOf
  rw [h1]
  by_cases hlt : Real.sqrt ((bNormSq m us : ℚ) : ℝ) < 1/10000
  · rw [if_pos hlt, max_eq_right (le_of_lt hlt)]
  · rw [if_neg hlt, max_eq_left (not_lt.1 hlt)]

/- ================================================================ -/
/- C8                                                                -/
/- ================================================================ -/

/-- C8, counterexample: the claim's formulas do not hold for every
level.  For a level built under two-pass smoothing (`RSPL_2PASSSMTH`
set, first sub-pass) with `smooth = -1` and `rsm = 1`, `new_mgtmp`
computes `cw[e] = pow(10.0, -6.0) * rsm = 1e-6` (scat.c:1219-1225),
not `-smooth * rsm = 1` as the claim states for every level. -/
theorem c8_counterexample :
    (cwCalc true false (-1) 1 1).1 = 1/1000000
    ∧ (cwCalc true false (-1) 1 1).1 ≠ -(-1 : ℚ) * 1 := by
  constructor
  · norm_num [cwCalc]
  · norm_num [cwCalc]

/-- C8, amended: for a level not under two-pass smoothing (the normal
mode, scat.c:1228-1237), a negative smoothing factor gives
`cw[e] = -smooth * rsm` without consulting the `opt_smooth` table, and
a non-negative smoothing factor gives
`cw[e] = smooth * opt_smooth(di, dno, avgdev[f]) * rsm` with the table
consulted. -/
theorem c8_amended (tpsm2 : Bool) (smooth rsm osv : ℚ) :
    (smooth < 0 →
      cwCalc false tpsm2 smooth rsm osv = (-smooth * rsm, false))
    ∧ (0 ≤ smooth →
      cwCalc false tpsm2 smooth rsm osv = (smooth * osv * rsm, true)) := by
  constructor
  · intro h
    simp only [cwCalc, Bool.false_eq_true, if_false]
    rw [if_neg (not_le.2 h)]
  · intro h
    simp only [cwCalc, Bool.false_eq_true, if_false]
    rw [if_pos h]

theorem cTrunc_of_nonneg (x : ℝ) (h : 0 ≤ x) : cTrunc x = ⌊x⌋ := if_pos h

theorem floor_nat_add_half (n : ℕ) : (⌊(n : ℝ) + 1/2⌋ : ℤ) = n := by
  rw [Int.floor_eq_iff]
  constructor
  · push_cast; linarith
  · push_cast; linarith

theorem log_ladder_lower (bres : ℕ) (hb : 8 < bres) :
    1/2 ≤ (Real.log bres - Real.log 4) / Real.log 2 := by
  have hlog2 : (0:ℝ) < Real.log 2 := Real.log_pos (by norm_num)
  have h9 : (9:ℝ) ≤ (bres : ℝ) := by exact_mod_cast hb
  have hl9 : Real.log 9 ≤ Real.log bres := Real.log_le_log (by norm_num) h9
  have h81 : Real.log ((9:ℝ) ^ (2:ℕ)) = (2:ℕ) * Real.log 9 := Real.log_pow 9 2
  have h32 : Real.log ((2:ℝ) ^ (5:ℕ)) = (5:ℕ) * Real.log 2 := Real.log_pow 2 5
  have h4 : Real.log ((2:ℝ) ^ (2:ℕ)) = (2:ℕ) * Real.log 2 := Real.log_pow 2 2
  have hle : Real.log ((2:ℝ) ^ (5:ℕ)) ≤ Real.log ((9:ℝ) ^ (2:ℕ)) :=
    Real.log_le_log (by norm_num) (by norm_num)
  have h4' : Real.log (4:ℝ) = 2 * Real.log 2 := by
    rw [show (4:ℝ) = (2:ℝ) ^ (2:ℕ) by norm_num, h4]; norm_num
  rw [le_div_iff hlog2]
  push_cast at h81 h32
  nlinarith [hl9, hle, h81, h32, h4']

theorem niters0_ge_one (bres : ℕ) (hb : 8 < bres) : 1 ≤ niters0 bres := by
  have hx := log_ladder_lower bres hb
  have hnn : (0:ℝ) ≤ (Real.log bres - Real.log 4) / Real.log 2 + 1/2 := by
    linarith
  unfold niters0
  rw [cTrunc_of_nonneg _ hnn]
  rw [Int.le_floor]
  push_cast
  linarith

theorem resAt_lastRung (bres : ℕ) : resAt bres (lastRung bres) = bres := by
  by_cases hc : (bres : ℝ) / 4 ≤ 2
  · have hl : lastRung bres = 1 := by
      unfold lastRung nitersOf
      rw [if_pos hc]
      rfl
    unfold resAt gRatOf
    rw [hl, if_pos hc, pow_one]
    field_simp
  · have h8 : (8:ℝ) < (bres:ℝ) := by
      rw [not_le] at hc
      nlinarith [hc]
    have h8n : 8 < bres := by exact_mod_cast h8
    have hbpos : (0:ℝ) < (bres:ℝ) := by linarith
    have hn0 : 1 ≤ niters0 bres := niters0_ge_one bres h8n
    have h0 : (0:ℤ) ≤ niters0 bres := by omega
    have hl : lastRung bres = (niters0 bres).toNat := by
      unfold lastRung nitersOf
      rw [if_neg hc]
      congr 1
      omega
    unfold resAt gRatOf
    rw [hl, if_neg hc, ← Real.exp_nat_mul]
    have hcast : (((niters0 bres).toNat : ℕ) : ℝ) = ((niters0 bres : ℤ) : ℝ) := by
      have := Int.toNat_of_nonneg h0
      exact_mod_cast congrArg (fun z : ℤ => (z : ℝ)) this
    rw [hcast]
    have hne : ((niters0 bres : ℤ) : ℝ) ≠ 0 := by
      have h1 : (1:ℝ) ≤ ((niters0 bres : ℤ) : ℝ) := by exact_mod_cast hn0
      linarith
    have hmul : ((niters0 bres : ℤ) : ℝ)
        * ((Real.log bres - Real.log 4) / ((niters0 bres : ℤ) : ℝ))
        = Real.log bres - Real.log 4 := by
      field_simp
    rw [hmul, Real.exp_sub, Real.exp_log hbpos,
        Real.exp_log (by norm_num : (0:ℝ) < 4)]
    field_simp

/- ================================================================ -/
/- C2                                                                -/
/- ================================================================ -/

/-- C2: for a fit call that passes input validation (every requested
axis resolution at least 2) the multigrid ladder ends exactly at the
requested resolution: on every axis `e` with requested resolution
`g = gres[e]` (so `g` is at most the largest axis resolution `bres`),
the last rung's per-axis resolution `ires[niters-1][e]` equals `g`.
The adjusted growth factor makes the floating rung value of the last
rung exactly `bres`, it rounds to `bres`, and the per-axis clamp of
scat.c:531-534 then selects the requested resolution. -/
theorem c2_last_rung (bres g : ℕ) (hg2 : 2 ≤ g) (hgb : g ≤ bres) :
    iresAt bres g (lastRung bres) = g := by
  have hres : resAt bres (lastRung bres) = bres := resAt_lastRung bres
  have hraw : iresRaw bres (lastRung bres) = bres := by
    unfold iresRaw
    rw [hres, cTrunc_of_nonneg _ (by positivity), floor_nat_add_half]
  unfold iresAt
  rw [hraw, if_pos (by exact_mod_cast Nat.le_succ_of_le hgb)]

theorem log3_div_log2_bounds :
    3/2 ≤ Real.log 3 / Real.log 2 ∧ Real.log 3 / Real.log 2 ≤ 2 := by
  have hlog2 : (0:ℝ) < Real.log 2 := Real.log_pos (by norm_num)
  have h8 : Real.log ((2:ℝ) ^ (3:ℕ)) = (3:ℕ) * Real.log 2 := Real.log_pow 2 3
  have h9 : Real.log ((3:ℝ) ^ (2:ℕ)) = (2:ℕ) * Real.log 3 := Real.log_pow 3 2
  have h89 : Real.log ((2:ℝ) ^ (3:ℕ)) ≤ Real.log ((3:ℝ) ^ (2:ℕ)) :=
    Real.log_le_log (by norm_num) (by norm_num)
  have h4 : Real.log ((2:ℝ) ^ (2:ℕ)) = (2:ℕ) * Real.log 2 := Real.log_pow 2 2
  have h34 : Real.log (3:ℝ) ≤ Real.log ((2:ℝ) ^ (2:ℕ)) :=
    Real.log_le_log (by norm_num) (by norm_num)
  push_cast at h8 h9 h4
  constructor
  · rw [le_div_iff hlog2]
    nlinarith [h8, h9, h89]
  · rw [div_le_iff hlog2]
    nlinarith [h4, h34]

/- ================================================================ -/
/- C3                                                                -/
/- ================================================================ -/

/-- C3, counterexample: for requested largest axis resolution
`bres = 12` we have `bres/4 = 3 > 2`, and the source computes
`niters = (int)(log(3)/log(2) + 0.5) + 1 = 2 + 1 = 3` (scat.c:511-513),
whereas the claim's formula gives `ceil(log(3)/log(2)) = 2`. -/
theorem c3_counterexample : nitersOf 12 = 3 ∧ specNiters 12 = 2 := by
  have hc : ¬ ((12:ℝ)/4 ≤ 2) := by norm_num
  have hlog2 : (0:ℝ) < Real.log 2 := Real.log_pos (by norm_num)
  have hl3 : Real.log (12:ℝ) - Real.log 4 = Real.log 3 := by
    rw [show (12:ℝ) = 4 * 3 by norm_num, Real.log_mul (by norm_num) (by norm_num)]
    ring
  obtain ⟨hlow, hup⟩ := log3_div_log2_bounds
  have hgt : Real.log 2 < Real.log 3 := Real.log_lt_log (by norm_num) (by norm_num)
  have hpos : (0:ℝ) < Real.log 3 / Real.log 2 := by
    exact div_pos (Real.log_pos (by norm_num)) hlog2
  constructor
  · unfold nitersOf niters0
    push_cast
    rw [if_neg hc, hl3, cTrunc_of_nonneg _ (by linarith)]
    have hfl : (⌊Real.log 3 / Real.log 2 + 1/2⌋ : ℤ) = 2 := by
      rw [Int.floor_eq_iff]
      constructor
      · push_cast; linarith
      · push_cast; linarith
    rw [hfl]
    rfl
  · unfold specNiters
    push_cast
    rw [if_neg hc]
    have h124 : ((12:ℝ)/4) = 3 := by norm_num
    rw [h124]
    rw [Int.ceil_eq_iff]
    constructor
    · push_cast
      have h1 : (1:ℝ) < Real.log 3 / Real.log 2 := by
        rw [lt_div_iff hlog2]
        linarith
      linarith
    · push_cast; linarith

/-- C3, amended: the ladder starts at the minimum resolution 4 and,
for `bres/4 <= 2`, has exactly 2 rungs; for `bres/4 > 2` its length is
`niters = floor(log2(bres/4) + 1/2) + 1` (round-half-up of
`log2(bres/4)`, plus one), not `ceil(log2(bres/4))`. -/
theorem c3_amended (bres : ℕ) :
    (bres ≤ 8 → nitersOf bres = 2)
    ∧ (8 < bres →
        nitersOf bres = ⌊Real.logb 2 ((bres:ℝ)/4) + 1/2⌋ + 1)
    ∧ resAt bres 0 = 4 := by
  refine ⟨?_, ?_, ?_⟩
  · intro h
    unfold nitersOf
    rw [if_pos ?_]
    have h8 : (bres:ℝ) ≤ 8 := by exact_mod_cast h
    linarith
  · intro h
    have h8 : (8:ℝ) < (bres:ℝ) := by exact_mod_cast h
    have hc : ¬ ((bres:ℝ)/4 ≤ 2) := by
      rw [not_le]
      linarith
    have hx := log_ladder_lower bres h
    unfold nitersOf niters0
    rw [if_neg hc]
    congr 1
    rw [cTrunc_of_nonneg _ (by linarith)]
    congr 2
    rw [Real.logb, Real.log_div (by positivity) (by norm_num)]
  · unfold resAt
    rw [pow_zero, mul_one]

/- ================================================================ -/
/- C5                                                                -/
/- ================================================================ -/

/-- C5: the relaxation batch size is in fact always `1`.  The variable
`ni` is declared (and zero-initialised) inside the loop body
(scat.c:2365), so the extrapolation formula at scat.c:2369 multiplies
by `0` and the clamp raises the result to `1` on every iteration: the
first conjunct shows `relaxBatch` (the code) returns `1` for every
input.  The second conjunct evaluates the spec's formula (`specBatch`,
the same expression with the previous batch size kept, here `1`) at
`tol = 1e-6`, `err = 1/10`, `lerr = 1/5`: it would return the full
clamp value `16`, showing the spec's intended extrapolation and the
code's computation genuinely diverge. -/
theorem c5_batch_size :
    (∀ (firstRelax : Bool) (tol err lerr : ℝ),
        relaxBatch firstRelax tol err lerr = 1)
    ∧ specBatch (1/1000000) (1/10) (1/5) 1 = 16 := by
  constructor
  · intro fr tol err lerr
    unfold relaxBatch
    cases fr
    · simp [cTrunc, clampNi]
    · rfl
  · unfold specBatch
    have e1 : Real.log ((1:ℝ)/1000000) = -(6 * Real.log 10) := by
      rw [one_div, Real.log_inv,
          show (1000000:ℝ) = (10:ℝ)^(6:ℕ) by norm_num, Real.log_pow 10 6]
      push_cast
      ring
    have e2 : Real.log ((1:ℝ)/10) = -Real.log 10 := by
      rw [one_div, Real.log_inv]
    have e3 : Real.log ((1:ℝ)/5) = -Real.log 5 := by
      rw [one_div, Real.log_inv]
    have e4 : Real.log (10:ℝ) = Real.log 2 + Real.log 5 := by
      rw [show (10:ℝ) = 2 * 5 by norm_num,
          Real.log_mul (by norm_num) (by norm_num)]
    rw [e1, e2, e3]
    have hnum : (-(6 * Real.log 10) - -Real.log 10) * (((1:ℤ)) : ℝ)
        = -(5 * Real.log 10) := by
      push_cast
      ring
    have hden : -Real.log 10 - -Real.log 5 = -Real.log 2 := by
      rw [e4]
      ring
    rw [hnum, hden, neg_div_neg_eq]
    have hlog2 : (0:ℝ) < Real.log 2 := Real.log_pos (by norm_num)
    have h55 : Real.log ((5:ℝ)^(5:ℕ)) = (5:ℕ) * Real.log 5 := Real.log_pow 5 5
    have h211 : Real.log ((2:ℝ)^(11:ℕ)) = (11:ℕ) * Real.log 2 :=
      Real.log_pow 2 11
    have hcmp : Real.log ((2:ℝ)^(11:ℕ)) ≤ Real.log ((5:ℝ)^(5:ℕ)) :=
      Real.log_le_log (by norm_num) (by norm_num)
    push_cast at h55 h211
    have hQ16 : (16:ℝ) ≤ 5 * Real.log 10 / Real.log 2 := by
      rw [le_div_iff hlog2, e4]
      nlinarith [h55, h211, hcmp]
    have hfloor : (16:ℤ) ≤ cTrunc (5 * Real.log 10 / Real.log 2) := by
      rw [cTrunc_of_nonneg _ (by linarith), Int.le_floor]
      push_cast
      exact hQ16
    unfold clampNi
    rw [if_neg (by omega)]
    rcases eq_or_lt_of_le hfloor with h | h
    · rw [if_neg (by omega)]
      omega
    · rw [if_pos (by omega)]

/- ================================================================ -/
/- Witnesses                                                         -/
/- ================================================================ -/

/-- Witness for `c2_last_rung` at `bres = 9`, `g = 5`. -/
theorem c2_last_rung_witness :
    (2 ≤ 5 ∧ 5 ≤ 9) ∧ iresAt 9 5 (lastRung 9) = 5 :=
  ⟨⟨by decide, by decide⟩, c2_last_rung 9 5 (by decide) (by decide)⟩

/-- Witness for `c3_amended` at `bres = 8` (short-ladder branch) and
`bres = 9` (long-ladder branch). -/
theorem c3_amended_witness :
    ((8:ℕ) ≤ 8 ∧ nitersOf 8 = 2)
    ∧ ((8:ℕ) < 9
        ∧ nitersOf 9 = ⌊Real.logb 2 (((9:ℕ):ℝ)/4) + 1/2⌋ + 1) :=
  ⟨⟨by decide, (c3_amended 8).1 (by decide)⟩,
   ⟨by decide, (c3_amended 9).2.1 (by decide)⟩⟩

/-- Witness for `c4_amended` at `gres = [4]`, no supplied tables. -/
theorem c4_amended_witness :
    (∀ g ∈ [4], 2 ≤ g)
    ∧ (((∃ e, (fitTrace [4] [] 5 1 2 0 0 0).2
          = Except.error (FitErr.iposGap e)) ↔ badTab [] = true)
      ∧ (badTab [] = true →
          FitEv.gridAlloc ∉ (fitTrace [4] [] 5 1 2 0 0 0).1
          ∧ ∀ f nn, FitEv.levelBuild f nn ∉ (fitTrace [4] [] 5 1 2 0 0 0).1)) :=
  ⟨by decide, c4_amended [4] [] 5 1 2 0 0 0 (by decide)⟩

/-- Witness for `c6_outer_loop` at `bres = 5` with the constant-zero
residual oracle. -/
theorem c6_outer_loop_witness :
    4 < 5
    ∧ ((0 < solveIters 5 (fun _ => 0) 1 1
        ∧ solveIters 5 (fun _ => 0) 1 1 ≤ 500)
      ∧ (∀ j, j + 1 < solveIters 5 (fun _ => 0) 1 1 →
          stopSpecAt (fun _ => 0) 1 1 j = false)
      ∧ (solveIters 5 (fun _ => 0) 1 1 < 500 →
          stopSpecAt (fun _ => 0) 1 1
            (solveIters 5 (fun _ => 0) 1 1 - 1) = true)) :=
  ⟨by decide, c6_outer_loop 5 (fun _ => 0) 1 1 (by decide)⟩

/-- Witness for `c8_amended`: the negative branch at `smooth = -1` and
the non-negative branch at `smooth = 1`. -/
theorem c8_amended_witness :
    ((-1 : ℚ) < 0 ∧ cwCalc false false (-1) 2 3 = (-(-1) * 2, false))
    ∧ ((0 : ℚ) ≤ 1 ∧ cwCalc false false 1 2 3 = (1 * 3 * 2, true)) :=
  ⟨⟨by simp, (c8_amended false (-1) 2 3).1 (by simp)⟩,
   ⟨by simp, (c8_amended false 1 2 3).2 (by simp)⟩⟩

/-- Witness for `c9_res_check`: a failing call with `gres = [1]` and a
passing call with `gres = [4]`. -/
theorem c9_res_check_witness :
    ((∃ g ∈ [1], g < 2)
      ∧ ((∃ e, (fitTrace [1] [] 1 1 2 0 0 0).2
            = Except.error (FitErr.resTooSmall e))
        ∧ FitEv.gridAlloc ∉ (fitTrace [1] [] 1 1 2 0 0 0).1
        ∧ ∀ f nn, FitEv.levelSolve f nn ∉ (fitTrace [1] [] 1 1 2 0 0 0).1))
    ∧ ((∀ g ∈ [4], 2 ≤ g)
      ∧ ∀ e, (fitTrace [4] [] 1 1 2 0 0 0).2
            ≠ Except.error (FitErr.resTooSmall e)) :=
  ⟨⟨by decide, (c9_res_check [1] [] 1 1 2 0 0 0).1 (by decide)⟩,
   ⟨by decide, (c9_res_check [4] [] 1 1 2 0 0 0).2 (by decide)⟩⟩

/-- Witness for `c10_zero_data_points` at `gres = [4]`,
`tabs = [none]`, three output channels, a two-rung ladder, and an
external monotonicity result of `7` (which must not appear in the
result). -/
theorem c10_zero_data_points_witness :
    ((∀ g ∈ [4], 2 ≤ g) ∧ badTab [none] = false)
    ∧ ((fitTrace [4] [none] 0 3 2 1 1 7).2 = Except.ok 0
      ∧ ∀ ev ∈ (fitTrace [4] [none] 0 3 2 1 1 7).1,
          (∀ f nn, ev ≠ FitEv.levelBuild f nn ∧ ev ≠ FitEv.levelSolve f nn)
          ∧ (∀ f, ev ≠ FitEv.gridWrite f)
          ∧ ev ≠ FitEv.monoCheck) :=
  ⟨⟨by decide, rfl⟩, c10_zero_data_points [4] [none] 3 2 1 1 7 (by decide) rfl⟩
